import Mathlib

/-!
Verification development for the cruft `create` command and its
cookiecutter helper utilities (`src/cruft/_commands/create.py` and
`src/cruft/_commands/utils/cookiecutter.py`).

The embedding models Python dictionaries as insertion-ordered
association lists (`Ctx`), Python substring tests and `str.replace`
over `List Char`, and the orchestration of `create` /
`generate_cookiecutter_context` as explicit state-passing functions.
External collaborators (the cookiecutter renderer, prompter,
`generate_context` merge, and the `packaging` version parser) are
modelled from the specification where their code is not part of this
repository.
-/

namespace Cruft

/-- A Python dict with string keys and string values, modelled as an
insertion-ordered association list (first occurrence of a key is the
binding that `dlookup` sees; well-formed dicts have `keysNodup`). -/
abbrev Ctx := List (String × String)

/-- Python `d[key]` lookup (first matching binding). -/
def dlookup : Ctx → String → Option String
  | [], _ => none
  | (k, v) :: t, key => if k = key then some v else dlookup t key

/-- Python `d[key] = val`: replace the value of an existing binding in
place, otherwise append the new binding at the end (insertion order). -/
def dset : Ctx → String → String → Ctx
  | [], key, val => [(key, val)]
  | (k, v) :: t, key, val =>
    if k = key then (k, val) :: t else (k, v) :: dset t key val

/-- Python `d.update(other)`: assign every binding of `other` into `d`,
in iteration order of `other`. -/
def dupdate (d other : Ctx) : Ctx :=
  other.foldl (fun acc kv => dset acc kv.1 kv.2) d

/-- The keys of a dict, in order. -/
def dkeys (d : Ctx) : List String := d.map Prod.fst

/-- Well-formedness of a dict: no duplicate keys. -/
def keysNodup (d : Ctx) : Prop := (dkeys d).Nodup

instance (d : Ctx) : Decidable (keysNodup d) := by
  unfold keysNodup; infer_instance

/-! ### Python string primitives over `List Char` -/

/-- Whether `needle` occurs at the start of `hay` (helper for
substring containment). -/
def begMatch : List Char → List Char → Bool
  | [], _ => true
  | _ :: _, [] => false
  | a :: as, b :: bs => a == b && begMatch as bs

/-- Python `needle in hay` for strings: substring containment. -/
def hasSub (needle : List Char) : List Char → Bool
  | [] => begMatch needle []
  | c :: t => begMatch needle (c :: t) || hasSub needle t

/-- Python `a in b` on `String`s. -/
def pyIn (a b : String) : Bool := hasSub a.data b.data

/-- Fuel-driven worker for Python `str.replace`: replaces
non-overlapping occurrences of `old` left to right.  Fuel at least
the length of the subject string suffices. -/
def pyReplaceAux (old rep : List Char) : Nat → List Char → List Char
  | _, [] => []
  | 0, s => s
  | fuel + 1, c :: t =>
    if !old.isEmpty && begMatch old (c :: t) then
      rep ++ pyReplaceAux old rep fuel ((c :: t).drop old.length)
    else
      c :: pyReplaceAux old rep fuel t

/-- Python `s.replace(old, rep)` on char lists (`old` nonempty, which
holds at every use site in the source). -/
def pyReplaceList (old rep s : List Char) : List Char :=
  pyReplaceAux old rep s.length s

/-- Python `s.replace(old, rep)` on `String`s. -/
def pyReplace (s old rep : String) : String :=
  ⟨pyReplaceList old.data rep.data s.data⟩

/-! ### Dictionary lemmas -/

theorem dlookup_dset_self (d : Ctx) (k v : String) :
    dlookup (dset d k v) k = some v := by
  induction d with
  | nil => simp [dset, dlookup]
  | cons hd t ih =>
    obtain ⟨k₀, v₀⟩ := hd
    by_cases h : k₀ = k
    · simp [dset, dlookup, h]
    · simp [dset, dlookup, h, ih]

theorem dlookup_dset_ne (d : Ctx) (k v k' : String) (h : k' ≠ k) :
    dlookup (dset d k v) k' = dlookup d k' := by
  have hkk : ¬ k = k' := fun hh => h hh.symm
  induction d with
  | nil => simp [dset, dlookup, hkk]
  | cons hd t ih =>
    obtain ⟨k₀, v₀⟩ := hd
    by_cases h0 : k₀ = k
    · subst h0
      simp [dset, dlookup, hkk]
    · by_cases h1 : k₀ = k'
      · subst h1
        simp [dset, dlookup, h0]
      · simp [dset, dlookup, h0, h1, ih]

theorem dlookup_dupdate_of_none (d o : Ctx) (k : String)
    (h : dlookup o k = none) :
    dlookup (dupdate d o) k = dlookup d k := by
  induction o generalizing d with
  | nil => rfl
  | cons hd t ih =>
    obtain ⟨k₀, v₀⟩ := hd
    simp only [dlookup] at h
    by_cases h0 : k₀ = k
    · simp [h0] at h
    · simp only [h0, if_false] at h
      show dlookup (dupdate (dset d k₀ v₀) t) k = dlookup d k
      rw [ih _ h, dlookup_dset_ne _ _ _ _ (fun hh => h0 hh.symm)]

theorem dlookup_not_mem (d : Ctx) (k : String) (h : k ∉ dkeys d) :
    dlookup d k = none := by
  induction d with
  | nil => rfl
  | cons hd t ih =>
    obtain ⟨k₀, v₀⟩ := hd
    simp only [dkeys, List.map_cons, List.mem_cons] at h
    push_neg at h
    simp only [dlookup]
    rw [if_neg (fun hh => h.1 hh.symm), ih (by simpa [dkeys] using h.2)]

theorem dlookup_dupdate_of_some (d o : Ctx) (k v : String)
    (hnd : keysNodup o) (h : dlookup o k = some v) :
    dlookup (dupdate d o) k = some v := by
  induction o generalizing d with
  | nil => simp [dlookup] at h
  | cons hd t ih =>
    obtain ⟨k₀, v₀⟩ := hd
    simp only [keysNodup, dkeys, List.map_cons, List.nodup_cons] at hnd
    simp only [dlookup] at h
    by_cases h0 : k₀ = k
    · subst h0
      rw [if_pos rfl] at h
      have ht : dlookup t k₀ = none :=
        dlookup_not_mem t k₀ (by simpa [dkeys] using hnd.1)
      show dlookup (dupdate (dset d k₀ v₀) t) k₀ = some v
      rw [dlookup_dupdate_of_none _ _ _ ht, dlookup_dset_self]
      exact h
    · rw [if_neg h0] at h
      exact ih (dset d k₀ v₀) (by simpa [keysNodup, dkeys] using hnd.2) h

theorem dlookup_dupdate_isSome (d o : Ctx) (k v : String)
    (h : dlookup d k = some v) :
    ∃ w, dlookup (dupdate d o) k = some w := by
  induction o generalizing d v with
  | nil => exact ⟨v, h⟩
  | cons hd t ih =>
    obtain ⟨k₀, v₀⟩ := hd
    show ∃ w, dlookup (dupdate (dset d k₀ v₀) t) k = some w
    by_cases h0 : k = k₀
    · subst h0
      exact ih _ _ (dlookup_dset_self d k v₀)
    · exact ih _ _ (by rw [dlookup_dset_ne _ _ _ _ h0]; exact h)

theorem dlookup_dupdate_none_rev (d o : Ctx) (k : String)
    (h : dlookup (dupdate d o) k = none) :
    dlookup d k = none := by
  cases hd : dlookup d k with
  | none => rfl
  | some v =>
    obtain ⟨w, hw⟩ := dlookup_dupdate_isSome d o k v hd
    rw [hw] at h
    cases h

/-! ### Filter lemmas (splitting a dict on a key predicate) -/

theorem dlookup_filter_pos (f : String → Bool) (d : Ctx) (k v : String)
    (h : dlookup d k = some v) (hf : f k = true) :
    dlookup (d.filter fun kv => f kv.1) k = some v := by
  induction d with
  | nil => simp [dlookup] at h
  | cons hd t ih =>
    obtain ⟨k₀, v₀⟩ := hd
    simp only [dlookup] at h
    by_cases h0 : k₀ = k
    · subst h0
      rw [if_pos rfl] at h
      injection h with hv
      subst hv
      simp [List.filter, hf, dlookup]
    · rw [if_neg h0] at h
      by_cases hf0 : f k₀ = true
      · simp [List.filter, hf0, dlookup, h0, ih h]
      · simp only [Bool.not_eq_true] at hf0
        simp [List.filter, hf0, ih h]

theorem dlookup_filter_negkey (f : String → Bool) (d : Ctx) (k : String)
    (hf : f k = false) :
    dlookup (d.filter fun kv => f kv.1) k = none := by
  induction d with
  | nil => rfl
  | cons hd t ih =>
    obtain ⟨k₀, v₀⟩ := hd
    by_cases hf0 : f k₀ = true
    · have h0 : k₀ ≠ k := fun hh => by rw [hh, hf] at hf0; cases hf0
      simp [List.filter, hf0, dlookup, h0, ih]
    · simp only [Bool.not_eq_true] at hf0
      simp [List.filter, hf0, ih]

theorem dlookup_filter_none (f : String → Bool) (d : Ctx) (k : String)
    (h : dlookup d k = none) :
    dlookup (d.filter fun kv => f kv.1) k = none := by
  induction d with
  | nil => rfl
  | cons hd t ih =>
    obtain ⟨k₀, v₀⟩ := hd
    simp only [dlookup] at h
    by_cases h0 : k₀ = k
    · simp [h0] at h
    · simp only [h0, if_false] at h
      by_cases hf0 : f k₀ = true
      · simp [List.filter, hf0, dlookup, h0, ih h]
      · simp only [Bool.not_eq_true] at hf0
        simp [List.filter, hf0, ih h]

/-! ### Nodup preservation -/

theorem mem_dkeys_dset (d : Ctx) (k v a : String) :
    a ∈ dkeys (dset d k v) ↔ a ∈ dkeys d ∨ a = k := by
  induction d with
  | nil => simp [dset, dkeys]
  | cons hd t ih =>
    obtain ⟨k₀, v₀⟩ := hd
    by_cases h0 : k₀ = k
    · subst h0
      have e1 : dkeys (dset ((k₀, v₀) :: t) k₀ v) = k₀ :: dkeys t := by
        simp [dset, dkeys]
      have e2 : dkeys ((k₀, v₀) :: t) = k₀ :: dkeys t := by simp [dkeys]
      rw [e1, e2]
      simp only [List.mem_cons]
      tauto
    · have e1 : dkeys (dset ((k₀, v₀) :: t) k v) = k₀ :: dkeys (dset t k v) := by
        simp [dset, dkeys, h0]
      have e2 : dkeys ((k₀, v₀) :: t) = k₀ :: dkeys t := by simp [dkeys]
      rw [e1, e2]
      simp only [List.mem_cons, ih]
      tauto

theorem keysNodup_dset (d : Ctx) (k v : String) (h : keysNodup d) :
    keysNodup (dset d k v) := by
  induction d with
  | nil => simp [dset, keysNodup, dkeys]
  | cons hd t ih =>
    obtain ⟨k₀, v₀⟩ := hd
    simp only [keysNodup, dkeys, List.map_cons, List.nodup_cons] at h
    by_cases h0 : k₀ = k
    · simpa [dset, h0, keysNodup, dkeys] using h
    · have := ih h.2
      simp only [dset, h0, if_false, keysNodup, dkeys, List.map_cons,
        List.nodup_cons]
      refine ⟨?_, this⟩
      intro hmem
      rcases (mem_dkeys_dset t k v k₀).1 (by simpa [dkeys] using hmem) with hh | hh
      · exact h.1 (by simpa [dkeys] using hh)
      · exact h0 hh

theorem keysNodup_dupdate (d o : Ctx) (h : keysNodup d) :
    keysNodup (dupdate d o) := by
  induction o generalizing d with
  | nil => exact h
  | cons hd t ih =>
    obtain ⟨k₀, v₀⟩ := hd
    exact ih _ (keysNodup_dset d k₀ v₀ h)

theorem keysNodup_filter (p : String × String → Bool) (d : Ctx)
    (h : keysNodup d) : keysNodup (d.filter p) := by
  unfold keysNodup dkeys at h ⊢
  exact List.Nodup.sublist (List.Sublist.map _ (List.filter_sublist d)) h

/-! ### String lemmas -/

theorem begMatch_append (old rest : List Char) :
    begMatch old (old ++ rest) = true := by
  induction old with
  | nil => rfl
  | cons a as ih => simp [begMatch, ih]

theorem hasSub_append (old rest : List Char) :
    hasSub old (old ++ rest) = true := by
  cases old with
  | nil => cases rest <;> simp [hasSub, begMatch]
  | cons a as =>
    have h1 := begMatch_append (a :: as) rest
    simp only [List.cons_append] at h1
    simp [hasSub, List.append_eq, List.cons_append, h1]

theorem begMatch_subset (n h : List Char) (hb : begMatch n h = true) :
    ∀ c ∈ n, c ∈ h := by
  induction n generalizing h with
  | nil => intro c hc; cases hc
  | cons a as ih =>
    cases h with
    | nil => cases hb
    | cons b bs =>
      simp only [begMatch, Bool.and_eq_true, beq_iff_eq] at hb
      intro c hc
      rcases List.mem_cons.1 hc with hc | hc
      · subst hc
        rw [hb.1]
        exact List.mem_cons_self _ _
      · exact List.mem_cons_of_mem _ (ih bs hb.2 c hc)

theorem hasSub_subset (n h : List Char) (hs : hasSub n h = true) :
    ∀ c ∈ n, c ∈ h := by
  induction h with
  | nil =>
    cases n with
    | nil => intro c hc; cases hc
    | cons a as => cases hs
  | cons b bs ih =>
    simp only [hasSub, Bool.or_eq_true] at hs
    rcases hs with hs | hs
    · exact begMatch_subset n (b :: bs) hs
    · intro c hc
      exact List.mem_cons_of_mem _ (ih hs c hc)

theorem pyReplaceAux_no_occurrence (old rep : List Char) (fuel : Nat)
    (s : List Char) (h : hasSub old s = false) :
    pyReplaceAux old rep fuel s = s := by
  induction fuel generalizing s with
  | zero => cases s <;> rfl
  | succ fuel ih =>
    cases s with
    | nil => rfl
    | cons c t =>
      simp only [hasSub, Bool.or_eq_false_iff] at h
      have hcond : (!old.isEmpty && begMatch old (c :: t)) = false := by
        rw [h.1]
        simp
      simp only [pyReplaceAux, hcond, Bool.false_eq_true, if_false]
      rw [ih t h.2]

theorem pyReplaceAux_head (old rep rest : List Char) (n : Nat)
    (hne : old ≠ []) :
    pyReplaceAux old rep (n + 1) (old ++ rest) =
      rep ++ pyReplaceAux old rep n rest := by
  obtain ⟨a, as, rfl⟩ : ∃ a as, old = a :: as := by
    cases old with
    | nil => cases hne rfl
    | cons a as => exact ⟨a, as, rfl⟩
  show pyReplaceAux (a :: as) rep (n + 1) (a :: (as ++ rest)) = _
  have hcond : (!(a :: as).isEmpty &&
      begMatch (a :: as) (a :: (as ++ rest))) = true := by
    rw [show (a :: (as ++ rest)) = (a :: as) ++ rest from rfl,
      begMatch_append]
    rfl
  simp only [pyReplaceAux, hcond, if_true]
  congr 1
  have : (a :: (as ++ rest)).drop (a :: as).length = rest := by
    show (as ++ rest).drop as.length = rest
    exact List.drop_left as rest
  rw [this]

/-- Replacing every occurrence of a nonempty `old` by `rep` in
`old ++ rest`, when `rest` contains no further occurrence, yields
`rep ++ rest` (Python `str.replace` removes all occurrences, left to
right and non-overlapping). -/
theorem pyReplaceList_strip_head (old rep rest : List Char)
    (hne : old ≠ []) (h : hasSub old rest = false) :
    pyReplaceList old rep (old ++ rest) = rep ++ rest := by
  obtain ⟨a, as, rfl⟩ : ∃ a as, old = a :: as := by
    cases old with
    | nil => cases hne rfl
    | cons a as => exact ⟨a, as, rfl⟩
  unfold pyReplaceList
  have hlen : ((a :: as) ++ rest).length = (as.length + rest.length) + 1 := by
    simp [List.length_append]
  rw [hlen, pyReplaceAux_head _ _ _ _ (by simp),
    pyReplaceAux_no_occurrence _ _ _ _ h]

/-! ### Checkout policy parsing (cookiecutter.py lines 68-91)

The source tests `checkout in LATEST` (i.e. the supplied string is a
substring of the constant `":latest:"`) and `BRANCH in checkout` (the
constant `"branch:"` occurs anywhere in the supplied string), then
strips every occurrence of `"branch:"` with `str.replace`. -/

/-- The parsed checkout policy. -/
inductive Policy where
  | latest : Policy
  | branch (ref : String) : Policy
  | explicit (ref : String) : Policy
deriving DecidableEq

/-- Parse a (non-None) checkout string exactly as
`get_cookiecutter_repo` does: `if checkout in ":latest:"` selects the
latest-tag path, `elif "branch:" in checkout` strips all `"branch:"`
occurrences, anything else is used verbatim. -/
def parsePolicy (checkout : String) : Policy :=
  if pyIn checkout ":latest:" then .latest
  else if pyIn "branch:" checkout then .branch (pyReplace checkout "branch:" "")
  else .explicit checkout

theorem parsePolicy_latest_iff (s : String) :
    parsePolicy s = .latest ↔ pyIn s ":latest:" = true := by
  unfold parsePolicy
  cases h : pyIn s ":latest:" with
  | true => simp [h]
  | false =>
    simp only [h, Bool.false_eq_true, if_false, iff_false]
    by_cases h2 : pyIn "branch:" s = true
    · rw [if_pos h2]
      intro hc
      cases hc
    · rw [if_neg h2]
      intro hc
      cases hc

/-! ### Latest-tag resolution (cookiecutter.py lines 70-88)

The tag-name to version translation delegates to the external
`packaging.version` collaborator after `re.sub(r"[^0-9.]", "", name)`.
Versions are modelled from the spec: a release is a list of numeric
segments compared with zero padding, and `0.0.0` is the sentinel for
an unparseable stripped string (spec section 3, RefCandidate). -/

/-- The digits of a decimal numeral, folded to a `Nat`. -/
def digitsToNat (l : List Char) : Nat :=
  l.foldl (fun n c => n * 10 + (c.toNat - 48)) 0

/-- Split a char list on `.` separators (keeping empty segments, as
Python `str.split(".")` would between adjacent dots). -/
def splitDotsAux : List Char → List Char → List (List Char)
  | [], acc => [acc.reverse]
  | c :: t, acc =>
    if c == '.' then acc.reverse :: splitDotsAux t []
    else splitDotsAux t (c :: acc)

/-- Modelled from the spec: the external version parser applied to a
stripped tag name (digits and dots only).  A well-formed dotted
numeral parses to its list of numeric segments; anything unparseable
(empty string, empty segment) is the sentinel `0.0.0`, which never
exceeds the initial bound. -/
def parseVerL (s : List Char) : List Nat :=
  let parts := splitDotsAux s []
  if s.isEmpty || parts.any (fun p => p.isEmpty) then [0, 0, 0]
  else parts.map digitsToNat

/-- Python `re.sub(r"[^0-9.]", "", name)`: keep only digits and dots. -/
def stripNonNumeric (s : String) : List Char :=
  s.data.filter (fun c => c == '.' || c.isDigit)

/-- Strict comparison of equal-length release lists. -/
def verLtAux : List Nat → List Nat → Bool
  | [], _ => false
  | _ :: _, [] => false
  | a :: as, b :: bs => decide (a < b) || (decide (a = b) && verLtAux as bs)

/-- Pad a release list with zeros up to length `n`. -/
def padZeros (l : List Nat) (n : Nat) : List Nat :=
  l ++ List.replicate (n - l.length) 0

/-- Modelled from the spec: version comparison pads the shorter
release with zeros and compares lexicographically (strict). -/
def verLt (a b : List Nat) : Bool :=
  verLtAux (padZeros a (max a.length b.length))
    (padZeros b (max a.length b.length))

/-- Render a `Nat` as decimal chars (fuel-driven, fuel `n + 1`
suffices). -/
def natToStrAux : Nat → Nat → List Char
  | 0, _ => []
  | fuel + 1, n =>
    if n < 10 then [Char.ofNat (48 + n)]
    else natToStrAux fuel (n / 10) ++ [Char.ofNat (48 + n % 10)]

/-- Render a release list the way `str(Version)` renders a release:
segments in decimal, joined by dots. -/
def verCharsList : List Nat → List Char
  | [] => []
  | [n] => natToStrAux (n + 1) n
  | n :: m :: rest => natToStrAux (n + 1) n ++ '.' :: verCharsList (m :: rest)

/-- String form of a parsed version. -/
def verToString (v : List Nat) : String := ⟨verCharsList v⟩

/-- The running-maximum loop of lines 77-81: start from the `0.0.0`
bound and replace it whenever a tag parses strictly greater (first
tag reaching a version wins ties). -/
def maxTagVersion (tags : List String) : List Nat :=
  tags.foldl
    (fun latest tag =>
      let ver := parseVerL (stripNonNumeric tag)
      if verLt latest ver then ver else latest)
    [0, 0, 0]

/-- Latest-tag resolution, lines 70-88: empty tag list gives `HEAD`;
a maximum that prints as `"0.0.0"` gives `HEAD`; otherwise the first
tag whose name contains the maximum version string is selected, and
`none` models the `assert` failing when no tag matches. -/
def resolveLatest (tags : List String) : Option String :=
  if tags.isEmpty then some "HEAD"
  else
    let vers := verToString (maxTagVersion tags)
    if vers == "0.0.0" then some "HEAD"
    else
      match tags.filter (fun t => hasSub vers.data t.data) with
      | [] => none
      | t :: _ => some t

/-- Checkout-reference resolution for a supplied checkout string, as
performed inside `get_cookiecutter_repo` (lines 68-91): the resolved
concrete ref replaces the policy value in the cruft state. -/
def resolveCheckoutRef (checkout : String) (tags : List String) :
    Option String :=
  match parsePolicy checkout with
  | .latest => resolveLatest tags
  | .branch r => some r
  | .explicit r => some r

theorem maxTagVersion_sentinel (tags : List String)
    (h : ∀ t ∈ tags, verLt [0, 0, 0] (parseVerL (stripNonNumeric t)) = false) :
    maxTagVersion tags = [0, 0, 0] := by
  unfold maxTagVersion
  induction tags with
  | nil => rfl
  | cons t ts ih =>
    rw [List.foldl_cons]
    have ht := h t (List.mem_cons_self _ _)
    simp only [ht, Bool.false_eq_true, if_false]
    exact ih (fun u hu => h u (List.mem_cons_of_mem _ hu))

theorem resolveLatest_sentinel (tags : List String)
    (h : ∀ t ∈ tags, verLt [0, 0, 0] (parseVerL (stripNonNumeric t)) = false) :
    resolveLatest tags = some "HEAD" := by
  unfold resolveLatest
  cases he : tags.isEmpty with
  | true => simp
  | false =>
    simp only [he, Bool.false_eq_true, if_false]
    rw [maxTagVersion_sentinel tags h]
    have hb : (verToString [0, 0, 0] == "0.0.0") = true := by decide
    simp [hb]

theorem resolveLatest_first_match (tags : List String) (t : String)
    (hne : tags ≠ [])
    (hmax : verToString (maxTagVersion tags) ≠ "0.0.0")
    (hfirst :
      (tags.filter
        (fun s => hasSub (verToString (maxTagVersion tags)).data s.data)).head?
        = some t) :
    resolveLatest tags = some t := by
  unfold resolveLatest
  have he : tags.isEmpty = false := by
    cases tags with
    | nil => cases hne rfl
    | cons a as => rfl
  simp only [he, Bool.false_eq_true, if_false]
  have hb : (verToString (maxTagVersion tags) == "0.0.0") = false := by
    rw [beq_eq_false_iff_ne]
    exact hmax
  simp only [hb, Bool.false_eq_true, if_false]
  cases hf : tags.filter
      (fun s => hasSub (verToString (maxTagVersion tags)).data s.data) with
  | nil => rw [hf] at hfirst; cases hfirst
  | cons a as =>
    rw [hf] at hfirst
    simp only [List.head?] at hfirst
    injection hfirst with ha
    subst ha
    rfl

/-! ### Context assembly (cookiecutter.py lines 115-190)

`generate_cookiecutter_context` is modelled with the file system made
explicit: `templateValid` is the outcome of `_validate_cookiecutter`,
and the `replay` field encodes the replay-file parameter (`none`: no
replay file supplied; `some none`: supplied but found at neither
location, which the code answers with `InvalidCookiecutterReplay`;
`some (some rc)`: found, with `rc` the `"cookiecutter"` mapping of the
loaded replay).  The external `generate_context` merge and the
prompter are modelled from the spec: the merge overlays user
variables on the template defaults, and prompting is a pass-through
in no-input mode (an arbitrary function `promptFn` otherwise). -/

/-- Errors of the context assembler. -/
inductive AsmErr where
  | unableToFindTemplate : AsmErr
  | invalidReplay : AsmErr
deriving DecidableEq

/-- Inputs of `generate_cookiecutter_context`. -/
structure AsmIn where
  url : String
  defaults : Ctx
  extra : Option Ctx
  noInput : Bool
  replay : Option (Option Ctx)
  templateValid : Bool
deriving DecidableEq

/-- Result of a successful assembly: the context handed to the
prompter, the final `context["cookiecutter"]` mapping, and the replay
content saved back (when a replay file was resolved). -/
structure AsmOut where
  promptInput : Ctx
  context : Ctx
  savedReplay : Option Ctx
deriving DecidableEq

/-- Python `key.startswith("_")`. -/
def startsUnderscore (k : String) : Bool :=
  match k.data with
  | [] => false
  | c :: _ => c == '_'

/-- Lines 150-153: merge the loaded replay context into the extra
context with `dict.update` when the extra context is a mapping,
otherwise the replay context becomes the whole extra context. -/
def mergeReplay (extra : Option Ctx) (replayCtx : Ctx) : Ctx :=
  match extra with
  | some d => dupdate d replayCtx
  | none => replayCtx

/-- The engine-variable predicate of the split at lines 160-165:
entries whose key starts with an underscore. -/
def undP (kv : String × String) : Bool := startsUnderscore kv.1

/-- The user-variable predicate: entries whose key does not start
with an underscore. -/
def nonUndP (kv : String × String) : Bool := !startsUnderscore kv.1

/-- Lines 157-165: split the combined extra context into engine
variables (underscore-prefixed keys, kept for the final overlay) and
user variables (everything else, merged before prompting). -/
def splitEngine (extra : Option Ctx) : Ctx × Ctx :=
  match extra with
  | none => ([], [])
  | some d => (d.filter undP, d.filter nonUndP)

/-- Lines 157-190 after replay resolution: split the extra context,
merge user variables over the defaults (external `generate_context`,
modelled from the spec), prompt (pass-through when `noInput`), inject
`_template`, overlay the engine variables, and save the result as the
new replay content when requested. -/
def assembleCore (url : String) (defaults : Ctx) (noInput : Bool)
    (promptFn : Ctx → Ctx) (extra : Option Ctx) (save : Bool) : AsmOut :=
  let base := dupdate defaults (splitEngine extra).2
  let prompted := if noInput then base else promptFn base
  let ctx := dupdate (dset prompted "_template" url) (splitEngine extra).1
  ⟨base, ctx, if save then some ctx else none⟩

/-- `generate_cookiecutter_context`, lines 115-190. -/
def generate_cookiecutter_context (inp : AsmIn) (promptFn : Ctx → Ctx) :
    Except AsmErr AsmOut :=
  if !inp.templateValid then .error .unableToFindTemplate
  else
    match inp.replay with
    | some none => .error .invalidReplay
    | some (some rc) =>
      .ok (assembleCore inp.url inp.defaults inp.noInput promptFn
        (some (mergeReplay inp.extra rc)) true)
    | none =>
      .ok (assembleCore inp.url inp.defaults inp.noInput promptFn
        inp.extra false)

/-- `get_extra_context_from_file`, lines 193-198: a missing file
yields an empty mapping without raising; an existing file yields its
parsed JSON content. -/
def get_extra_context_from_file (fileExists : Bool) (content : Ctx) : Ctx :=
  if fileExists then content else []

/-- Lines 46-47 of create.py: when an extra-context file path is
supplied, its loaded content fully replaces the programmatic extra
context. -/
def effectiveExtraContext (programmatic : Option Ctx)
    (extraContextFile : Option (Bool × Ctx)) : Option Ctx :=
  match extraContextFile with
  | some f => some (get_extra_context_from_file f.1 f.2)
  | none => programmatic

/-! ### The create orchestrator (create.py lines 14-86)

Collaborator outcomes (clone, checkout, commit hash, tag list,
renderer) are explicit inputs.  The arities of the call at
create.py lines 48-57 and of the called function at cookiecutter.py
lines 115-123 are recorded so the embedding can express the Python
call-time arity check. -/

/-- Maximum number of positional arguments `generate_cookiecutter_context`
accepts (its signature at cookiecutter.py lines 115-123 declares 7
parameters, all positional-or-keyword). -/
def genContextMaxPositional : Nat := 7

/-- Number of positional arguments the call at create.py lines 48-57
passes to `generate_cookiecutter_context` (template_git_url,
last_commit, cookiecutter_template_dir, config_file, default_config,
extra_context, no_input, replay_file). -/
def createContextCallArgs : Nat := 8

/-- Values stored in the `.cruft.json` mapping. -/
inductive CruftVal where
  | str (s : String) : CruftVal
  | optStr (s : Option String) : CruftVal
  | ctx (c : Ctx) : CruftVal
  | strList (l : List String) : CruftVal
deriving DecidableEq

/-- Errors create can surface (TypeError and AssertionError are raw
Python errors escaping the function). -/
inductive CreateErr where
  | invalidRepo (msg : String) : CreateErr
  | assertionError : CreateErr
  | typeError : CreateErr
  | cruftError (msg : String) : CreateErr
deriving DecidableEq

/-- A successful create outcome: the generated project directory and
the `.cruft.json` mapping written at its root. -/
structure CreateOut where
  projectDir : String
  cruftJson : List (String × CruftVal)
deriving DecidableEq

/-- Inputs of `create` that the claims exercise. -/
structure CreateIn where
  templateGitUrl : String
  checkout : Option String
  directory : Option String
  skip : Option (List String)
  extraContext : Option Ctx
  extraContextFile : Option (Bool × Ctx)
deriving DecidableEq

/-- Collaborator outcomes for one `create` run. -/
structure Collab where
  cloneOk : Bool
  tags : List String
  checkoutOk : Bool
  headCommit : String
  renderOk : Bool
  renderProjectDir : String
  renderErrMsg : String
  asmContext : Ctx
deriving DecidableEq

/-- Lines 69-78: the `.cruft.json` mapping; `skip` is included only
when a non-empty skip list was given (`if skip:` truthiness). -/
def buildCruftContent (url commit : String) (checkout : Option String)
    (context : Ctx) (directory : Option String)
    (skip : Option (List String)) : List (String × CruftVal) :=
  let base := [("template", CruftVal.str url),
    ("commit", CruftVal.str commit),
    ("checkout", CruftVal.optStr checkout),
    ("context", CruftVal.ctx context),
    ("directory", CruftVal.optStr directory)]
  match skip with
  | some l => if l.isEmpty then base else base ++ [("skip", CruftVal.strList l)]
  | none => base

/-- Lines 85-86: a renderer `CookiecutterException` is re-raised as a
`CruftError` whose message is the original with `"Error: "` replaced
by the empty string (`str.replace`, all occurrences). -/
def renderFailure (msg : String) : CreateErr :=
  .cruftError (pyReplace msg "Error: " "")

/-- The `create` orchestrator, lines 14-86.  URL resolution (lines
35-52) is file-system dependent and not exercised by any claim, so
the template reference is taken as already resolved.  The step that
calls `generate_cookiecutter_context` checks the Python call arity:
the call passes `createContextCallArgs` positional arguments while
the callee accepts at most `genContextMaxPositional`, and a mismatch
raises `TypeError` before the renderer ever runs. -/
def create (inp : CreateIn) (col : Collab) : Except CreateErr CreateOut :=
  if !col.cloneOk then .error (.invalidRepo "Failed to clone the repo.")
  else
    let resolved : Except CreateErr (Option String) :=
      match inp.checkout with
      | none => .ok none
      | some c =>
        match resolveCheckoutRef c col.tags with
        | none => .error .assertionError
        | some r => .ok (some r)
    match resolved with
    | .error e => .error e
    | .ok checkoutRef =>
      if inp.checkout.isSome && !col.checkoutOk then
        .error (.invalidRepo "Failed to check out the reference.")
      else
        let _extra := effectiveExtraContext inp.extraContext inp.extraContextFile
        if createContextCallArgs > genContextMaxPositional then
          .error .typeError
        else
          if !col.renderOk then .error (renderFailure col.renderErrMsg)
          else
            .ok ⟨col.renderProjectDir,
              buildCruftContent inp.templateGitUrl col.headCommit checkoutRef
                col.asmContext inp.directory inp.skip⟩

/-! ## Claim theorems -/

/-- C3 counterexample: the policy string `"a:latest:b"` contains the
literal token `":latest:"` yet does not parse as Latest — the source
tests `checkout in ":latest:"` (the checkout string must be a
substring of the token), so `"a:latest:b"` parses as Explicit. -/
theorem c3_counterexample :
    pyIn ":latest:" "a:latest:b" = true ∧
    parsePolicy "a:latest:b" = Policy.explicit "a:latest:b" ∧
    parsePolicy "a:latest:b" ≠ Policy.latest := by
  refine ⟨by decide, by decide, by decide⟩

/-- C3 amended: a checkout policy string parses as Latest exactly when
the string itself is a substring of the token `":latest:"` (in
particular the exact token, and shorthands such as `"latest"`, parse
as Latest); a string that merely contains `":latest:"` does not. -/
theorem c3_amended (s : String) :
    parsePolicy s = Policy.latest ↔ pyIn s ":latest:" = true :=
  parsePolicy_latest_iff s

/-- C4 counterexample: `"branch:branch:main"` starts with the prefix
`"branch:"`, and the remainder after that prefix is `"branch:main"`,
but the code strips every occurrence of `"branch:"` and resolves the
policy to Branch `"main"`. -/
theorem c4_counterexample :
    parsePolicy "branch:branch:main" = Policy.branch "main" ∧
    pyReplace "branch:branch:main" "branch:" "" = "main" ∧
    Policy.branch "main" ≠ Policy.branch "branch:main" := by
  refine ⟨by decide, by decide, by decide⟩

/-- C4 amended: a checkout policy string starting with `"branch:"`
parses as Branch with every occurrence of `"branch:"` removed; when
the remainder after the leading prefix contains no further
`"branch:"`, the concrete ref equals that remainder. -/
theorem c4_amended (rest : List Char)
    (h : hasSub "branch:".data rest = false) :
    parsePolicy ⟨"branch:".data ++ rest⟩ = Policy.branch ⟨rest⟩ := by
  have hlat : hasSub ("branch:".data ++ rest) ":latest:".data = false := by
    cases hb : hasSub ("branch:".data ++ rest) ":latest:".data with
    | false => rfl
    | true =>
      have hmem : 'b' ∈ ":latest:".data :=
        hasSub_subset _ _ hb 'b' (List.mem_append_left _ (by decide))
      exact absurd hmem (by decide)
  have hbr : hasSub "branch:".data ("branch:".data ++ rest) = true :=
    hasSub_append _ _
  have hrepl :
      pyReplace ⟨"branch:".data ++ rest⟩ "branch:" "" = (⟨rest⟩ : String) := by
    show (⟨pyReplaceList "branch:".data "".data ("branch:".data ++ rest)⟩
      : String) = ⟨rest⟩
    rw [pyReplaceList_strip_head _ _ _ (by decide) h,
      show "".data = ([] : List Char) from by decide, List.nil_append]
  unfold parsePolicy pyIn
  have hd : (⟨"branch:".data ++ rest⟩ : String).data = "branch:".data ++ rest :=
    rfl
  rw [hd, hlat, hbr]
  simp only [Bool.false_eq_true, if_false, if_true]
  rw [hrepl]

/-- C4 witness: the plain string `"branch:main"` resolves to Branch
`"main"`. -/
theorem c4_witness :
    parsePolicy ⟨"branch:".data ++ "main".data⟩ =
      Policy.branch ⟨"main".data⟩ :=
  c4_amended "main".data (by decide)

/-- C5: Latest resolution picks the maximum stripped-numeric version
starting from the `0.0.0` bound and selects the first tag containing
its string form; concretely the tag set
`["v1.0.0", "v1.2.0", "v1.1.0"]` resolves to `"v1.2.0"` and the empty
tag set resolves to `"HEAD"`. -/
theorem c5_latest_resolution :
    resolveLatest ["v1.0.0", "v1.2.0", "v1.1.0"] = some "v1.2.0" ∧
    resolveLatest [] = some "HEAD" ∧
    ∀ (tags : List String) (t : String), tags ≠ [] →
      verToString (maxTagVersion tags) ≠ "0.0.0" →
      (tags.filter (fun s =>
        hasSub (verToString (maxTagVersion tags)).data s.data)).head?
        = some t →
      resolveLatest tags = some t := by
  refine ⟨by decide, by decide, ?_⟩
  intro tags t h1 h2 h3
  exact resolveLatest_first_match tags t h1 h2 h3

/-- C5 witness: the general first-matching-tag clause instantiated on
the concrete tag set of the claim. -/
theorem c5_witness :
    resolveLatest ["v1.0.0", "v1.2.0", "v1.1.0"] = some "v1.2.0" :=
  c5_latest_resolution.2.2 ["v1.0.0", "v1.2.0", "v1.1.0"] "v1.2.0"
    (by decide) (by decide) (by decide)

/-- C6: when no tag strippes to a version exceeding the `0.0.0`
sentinel, Latest resolution returns `"HEAD"` instead of failing;
concretely `["release", "nightly"]` resolves to `"HEAD"`. -/
theorem c6_no_numeric_tags :
    resolveLatest ["release", "nightly"] = some "HEAD" ∧
    ∀ tags : List String,
      (∀ t ∈ tags, verLt [0, 0, 0] (parseVerL (stripNonNumeric t)) = false) →
      resolveLatest tags = some "HEAD" := by
  refine ⟨by decide, ?_⟩
  exact resolveLatest_sentinel

/-- C6 witness: the general sentinel clause instantiated on the
concrete non-numeric tag set. -/
theorem c6_witness : resolveLatest ["release", "nightly"] = some "HEAD" :=
  c6_no_numeric_tags.2 ["release", "nightly"] (by decide)

/-- C1 (code bug): whenever clone and checkout succeed (and checkout
resolution does not hit the assert), `create` raises a Python
`TypeError` at the `generate_cookiecutter_context` call — the call at
create.py lines 48-57 passes 8 positional arguments while the
function at cookiecutter.py lines 115-123 accepts at most 7 — so
`create` never reaches the renderer, never writes `.cruft.json` and
never returns a project directory. -/
theorem c1_create_type_error (inp : CreateIn) (col : Collab)
    (hclone : col.cloneOk = true)
    (hcheckout : col.checkoutOk = true)
    (hresolve : ∀ c, inp.checkout = some c →
      (resolveCheckoutRef c col.tags).isSome = true) :
    create inp col = .error CreateErr.typeError := by
  unfold create
  rw [hclone]
  simp only [Bool.not_true, Bool.false_eq_true, if_false]
  cases hc : inp.checkout with
  | none =>
    simp [hc, hcheckout, createContextCallArgs, genContextMaxPositional]
  | some c =>
    have hs := hresolve c hc
    cases hr : resolveCheckoutRef c col.tags with
    | none => rw [hr] at hs; cases hs
    | some r =>
      simp [hc, hr, hcheckout, createContextCallArgs, genContextMaxPositional]

/-- C1 witness: a concrete run with successful clone and checkout
still ends in `TypeError`. -/
theorem c1_witness :
    create ⟨"https://example.com/t", none, none, none, none, none⟩
      ⟨true, [], true, "abc123", true, "proj", "", []⟩ =
      .error CreateErr.typeError :=
  c1_create_type_error _ _ rfl rfl (fun _ h => nomatch h)

/-- C2 counterexample: with caller extra context `{"k": "cur"}` and
replay content `{"k": "rep"}`, the merged extra context maps `"k"` to
the replay value `"rep"`, not the caller value `"cur"` — `dict.update`
lets the replay win on conflicting keys. -/
theorem c2_counterexample :
    dlookup (mergeReplay (some [("k", "cur")]) [("k", "rep")]) "k"
      = some "rep" ∧
    (some "rep" : Option String) ≠ some "cur" := by
  refine ⟨by decide, by decide⟩

/-- C2 amended: when the extra context is already a mapping, loaded
replay values override the caller values on every key present in the
replay (replay wins on conflict), while keys absent from the replay
keep the caller values. -/
theorem c2_amended (extra replayCtx : Ctx) (k : String)
    (hnd : keysNodup replayCtx) :
    (∀ v, dlookup replayCtx k = some v →
      dlookup (mergeReplay (some extra) replayCtx) k = some v) ∧
    (dlookup replayCtx k = none →
      dlookup (mergeReplay (some extra) replayCtx) k = dlookup extra k) := by
  constructor
  · intro v hv
    exact dlookup_dupdate_of_some extra replayCtx k v hnd hv
  · intro hnone
    exact dlookup_dupdate_of_none extra replayCtx k hnone

/-- C2 witness: the amended merge rule evaluated at a concrete
conflicting key. -/
theorem c2_witness :
    dlookup (mergeReplay (some [("k", "cur"), ("a", "1")]) [("k", "rep")]) "k"
      = some "rep" :=
  (c2_amended [("k", "cur"), ("a", "1")] [("k", "rep")] "k" (by decide)).1
    "rep" (by decide)

/-- C9 counterexample: a renderer message `"Error: x Error: y"` begins
with the generic prefix, but the surfaced CruftError message is
`"x y"` — `str.replace` removes every occurrence of `"Error: "`, not
just the leading prefix (which would give `"x Error: y"`). -/
theorem c9_counterexample :
    renderFailure "Error: x Error: y" = CreateErr.cruftError "x y" ∧
    ("x y" : String) ≠ "x Error: y" := by
  refine ⟨by decide, by decide⟩

/-- C9 amended: a renderer failure is re-raised as the system's own
CruftError with every occurrence of `"Error: "` removed from the
message; in particular, when the message is the prefix `"Error: "`
followed by text containing no further occurrence, the surfaced
message is exactly that text. -/
theorem c9_amended (rest : List Char)
    (h : hasSub "Error: ".data rest = false) :
    renderFailure ⟨"Error: ".data ++ rest⟩ =
      CreateErr.cruftError ⟨rest⟩ := by
  show CreateErr.cruftError
    ⟨pyReplaceList "Error: ".data "".data ("Error: ".data ++ rest)⟩ = _
  rw [pyReplaceList_strip_head _ _ _ (by decide) h,
    show "".data = ([] : List Char) from by decide, List.nil_append]

/-- C9 witness: the amended strip rule on a concrete message. -/
theorem c9_witness :
    renderFailure ⟨"Error: ".data ++ "boom".data⟩ =
      CreateErr.cruftError ⟨"boom".data⟩ :=
  c9_amended "boom".data (by decide)

/-- C10: loading a supplied but non-existent extra-context file yields
an empty mapping without raising, and that empty mapping fully
replaces any programmatically supplied extra context. -/
theorem c10_extra_context_file_missing (prog : Option Ctx) (content : Ctx) :
    get_extra_context_from_file false content = [] ∧
    effectiveExtraContext prog (some (false, content)) = some [] :=
  ⟨rfl, rfl⟩

/-! ### Split-filter lemmas and the replay round trip -/

theorem dlookup_filter_und_pos (d : Ctx) (k v : String)
    (h : dlookup d k = some v) (hk : startsUnderscore k = true) :
    dlookup (d.filter undP) k = some v :=
  dlookup_filter_pos startsUnderscore d k v h hk

theorem dlookup_filter_und_neg (d : Ctx) (k : String)
    (hk : startsUnderscore k = false) :
    dlookup (d.filter undP) k = none :=
  dlookup_filter_negkey startsUnderscore d k hk

theorem dlookup_filter_und_none (d : Ctx) (k : String)
    (h : dlookup d k = none) :
    dlookup (d.filter undP) k = none :=
  dlookup_filter_none startsUnderscore d k h

theorem dlookup_filter_nonUnd_pos (d : Ctx) (k v : String)
    (h : dlookup d k = some v) (hk : startsUnderscore k = false) :
    dlookup (d.filter nonUndP) k = some v :=
  dlookup_filter_pos (fun s => !startsUnderscore s) d k v h (by simp [hk])

theorem dlookup_filter_nonUnd_neg (d : Ctx) (k : String)
    (hk : startsUnderscore k = true) :
    dlookup (d.filter nonUndP) k = none :=
  dlookup_filter_negkey (fun s => !startsUnderscore s) d k (by simp [hk])

theorem dlookup_filter_nonUnd_none (d : Ctx) (k : String)
    (h : dlookup d k = none) :
    dlookup (d.filter nonUndP) k = none :=
  dlookup_filter_none (fun s => !startsUnderscore s) d k h

/-- The final context an assembly computes from a combined extra
context `e` (the `context` field of `assembleCore` when the extra
context is `some e`). -/
def coreCtx (url : String) (defaults : Ctx) (noInput : Bool)
    (pf : Ctx → Ctx) (e : Ctx) : Ctx :=
  dupdate
    (dset
      (if noInput then dupdate defaults (e.filter nonUndP)
       else pf (dupdate defaults (e.filter nonUndP)))
      "_template" url)
    (e.filter undP)

theorem assembleCore_context (url : String) (defaults : Ctx)
    (noInput : Bool) (pf : Ctx → Ctx) (e : Ctx) (save : Bool) :
    (assembleCore url defaults noInput pf (some e) save).context
      = coreCtx url defaults noInput pf e := rfl

/-- Re-assembling with the previous final context as the whole extra
context (which is what loading the saved replay produces) reproduces
the same final context pointwise, provided prompting preserves the
key set and key uniqueness. -/
theorem coreCtx_roundtrip (url : String) (defaults e : Ctx)
    (pf : Ctx → Ctx) (b1 : Bool)
    (hd : keysNodup defaults)
    (hpk : ∀ c kk, dlookup (pf c) kk = none ↔ dlookup c kk = none)
    (hpn : ∀ c, keysNodup c → keysNodup (pf c)) (k : String) :
    dlookup (coreCtx url defaults true pf (coreCtx url defaults b1 pf e)) k
      = dlookup (coreCtx url defaults b1 pf e) k := by
  have hTund : startsUnderscore "_template" = true := by decide
  set base1 := dupdate defaults (e.filter nonUndP) with hbase1def
  set p1 : Ctx := if b1 then base1 else pf base1 with hp1def
  have hc1 : coreCtx url defaults b1 pf e
      = dupdate (dset p1 "_template" url) (e.filter undP) := rfl
  set c1 := coreCtx url defaults b1 pf e with hc1def
  have nd_base1 : keysNodup base1 := keysNodup_dupdate _ _ hd
  have nd_p1 : keysNodup p1 := by
    cases b1 with
    | true => simpa [hp1def] using nd_base1
    | false => simpa [hp1def] using hpn base1 nd_base1
  have hp1k : ∀ kk, dlookup p1 kk = none ↔ dlookup base1 kk = none := by
    intro kk
    cases b1 with
    | true => simp [hp1def]
    | false => simpa [hp1def] using hpk base1 kk
  have nd_c1 : keysNodup c1 := by
    rw [hc1]
    exact keysNodup_dupdate _ _ (keysNodup_dset _ _ _ nd_p1)
  have hTc1 : ∃ w, dlookup c1 "_template" = some w := by
    rw [hc1]
    exact dlookup_dupdate_isSome _ _ _ _ (dlookup_dset_self p1 "_template" url)
  rw [show coreCtx url defaults true pf c1
    = dupdate (dset (dupdate defaults (c1.filter nonUndP)) "_template" url)
      (c1.filter undP) from rfl]
  by_cases hk : startsUnderscore k = true
  · cases hcv : dlookup c1 k with
    | some v =>
      rw [dlookup_dupdate_of_some _ _ _ _ (keysNodup_filter _ _ nd_c1)
        (dlookup_filter_und_pos _ _ _ hcv hk)]
    | none =>
      have hkT : k ≠ "_template" := by
        intro hEq
        obtain ⟨w, hw⟩ := hTc1
        rw [← hEq, hcv] at hw
        cases hw
      have hdefn : dlookup defaults k = none := by
        cases hdf : dlookup defaults k with
        | none => rfl
        | some w =>
          exfalso
          have hu1 : dlookup (e.filter nonUndP) k = none :=
            dlookup_filter_nonUnd_neg _ _ hk
          have hb1 : dlookup base1 k = some w := by
            rw [hbase1def, dlookup_dupdate_of_none _ _ _ hu1]
            exact hdf
          obtain ⟨pv, hpv⟩ : ∃ pv, dlookup p1 k = some pv := by
            cases hq : dlookup p1 k with
            | none =>
              rw [(hp1k k).1 hq] at hb1
              cases hb1
            | some pv => exact ⟨pv, rfl⟩
          have hset : dlookup (dset p1 "_template" url) k = some pv := by
            rw [dlookup_dset_ne _ _ _ _ hkT]
            exact hpv
          obtain ⟨w2, hw2⟩ :=
            dlookup_dupdate_isSome _ (e.filter undP) _ _ hset
          rw [hc1] at hcv
          rw [hcv] at hw2
          cases hw2
      rw [dlookup_dupdate_of_none _ _ _ (dlookup_filter_und_none _ _ hcv),
        dlookup_dset_ne _ _ _ _ hkT,
        dlookup_dupdate_of_none _ _ _ (dlookup_filter_nonUnd_neg _ _ hk),
        hdefn]
  · have hkf : startsUnderscore k = false := by
      cases hq : startsUnderscore k with
      | false => rfl
      | true => exact absurd hq hk
    have hkT : k ≠ "_template" := by
      intro hEq
      rw [hEq, hTund] at hkf
      cases hkf
    have hc1p : dlookup c1 k = dlookup p1 k := by
      rw [hc1,
        dlookup_dupdate_of_none _ _ _ (dlookup_filter_und_neg _ _ hkf),
        dlookup_dset_ne _ _ _ _ hkT]
    rw [dlookup_dupdate_of_none _ _ _ (dlookup_filter_und_neg _ _ hkf),
      dlookup_dset_ne _ _ _ _ hkT]
    cases hp : dlookup p1 k with
    | some v =>
      have hcs : dlookup c1 k = some v := by
        rw [hc1p]
        exact hp
      rw [dlookup_dupdate_of_some _ _ _ _ (keysNodup_filter _ _ nd_c1)
        (dlookup_filter_nonUnd_pos _ _ _ hcs hkf), hcs]
    | none =>
      have hcn : dlookup c1 k = none := by
        rw [hc1p]
        exact hp
      have hbn : dlookup base1 k = none := (hp1k k).1 hp
      have hdn : dlookup defaults k = none := by
        rw [hbase1def] at hbn
        exact dlookup_dupdate_none_rev _ _ _ hbn
      rw [dlookup_dupdate_of_none _ _ _ (dlookup_filter_nonUnd_none _ _ hcn),
        hdn, hcn]

/-- C7 counterexample: assembling with extra context
`{"name": "x"}` and a fresh (non-existent) replay file does not
succeed — the assembler raises `InvalidCookiecutterReplay` instead of
creating the file, so the round-trip scenario fails at its first
step. -/
theorem c7_counterexample :
    generate_cookiecutter_context
      ⟨"t", [], some [("name", "x")], false, some none, true⟩
      (fun c => c) = .error AsmErr.invalidReplay := rfl

/-- C7 amended: a supplied replay file that exists at neither location
makes assembly fail with `InvalidCookiecutterReplay` (no fresh file is
created); when the replay file already exists (with any content `R`),
assembling once with extra context `{"name": "x"}` and then a second
time with no extra context, the same replay file (now holding the
first result) and `noInput = true` succeeds and yields a final
context identical, as a key-value mapping, to the first result —
provided prompting preserves the key set and key uniqueness (which
the cookiecutter prompter does). -/
theorem c7_amended (url : String) (defaults R : Ctx) (b1 : Bool)
    (pf : Ctx → Ctx)
    (hd : keysNodup defaults)
    (hpk : ∀ c kk, dlookup (pf c) kk = none ↔ dlookup c kk = none)
    (hpn : ∀ c, keysNodup c → keysNodup (pf c)) :
    ∃ out1 out2,
      generate_cookiecutter_context
        ⟨url, defaults, some [("name", "x")], b1, some (some R), true⟩ pf
        = .ok out1 ∧
      generate_cookiecutter_context
        ⟨url, defaults, none, true, some (some out1.context), true⟩ pf
        = .ok out2 ∧
      ∀ k, dlookup out2.context k = dlookup out1.context k := by
  refine ⟨_, _, rfl, rfl, ?_⟩
  intro k
  exact coreCtx_roundtrip url defaults (mergeReplay (some [("name", "x")]) R)
    pf b1 hd hpk hpn k

/-- C7 witness: the amended round trip instantiated with an identity
prompter, concrete defaults and concrete pre-existing replay
content. -/
theorem c7_witness :
    ∃ out1 out2,
      generate_cookiecutter_context
        ⟨"t", [("lang", "py")], some [("name", "x")], true,
          some (some [("name", "y")]), true⟩ (fun c => c) = .ok out1 ∧
      generate_cookiecutter_context
        ⟨"t", [("lang", "py")], none, true, some (some out1.context), true⟩
        (fun c => c) = .ok out2 ∧
      ∀ k, dlookup out2.context k = dlookup out1.context k :=
  c7_amended "t" [("lang", "py")] [("name", "y")] true (fun c => c)
    (by decide) (fun _ _ => Iff.rfl) (fun _ h => h)

/-- C8 counterexample: in an assembly with a replay file, an
underscore-prefixed key supplied in the extra context does not keep
its supplied value — extra context `{"_k": "a"}` with replay content
`{"_k": "b"}` yields a final context mapping `"_k"` to `"b"`. -/
theorem c8_counterexample :
    ∃ o, generate_cookiecutter_context
        ⟨"t", [], some [("_k", "a")], true, some (some [("_k", "b")]), true⟩
        (fun c => c) = .ok o ∧
      dlookup o.context "_k" = some "b" ∧
      (some "b" : Option String) ≠ some "a" := by
  refine ⟨_, rfl, by decide, by decide⟩

/-- C8 amended: in every assembly without a replay file, every
underscore-prefixed key supplied in the extra context appears in the
final context with exactly the supplied value (taking final
precedence over the injected `_template` engine key when that name is
reused), and its supplied entry is never passed to prompting: the
context handed to the prompter holds at that key exactly what the
template defaults hold (nothing, when the defaults do not declare
it). -/
theorem c8_amended (url : String) (defaults extraD : Ctx)
    (pf : Ctx → Ctx) (noInput : Bool) (k v : String)
    (hnd : keysNodup extraD)
    (hk : startsUnderscore k = true)
    (hv : dlookup extraD k = some v) :
    ∃ o, generate_cookiecutter_context
        ⟨url, defaults, some extraD, noInput, none, true⟩ pf = .ok o ∧
      dlookup o.context k = some v ∧
      dlookup o.promptInput k = dlookup defaults k := by
  refine ⟨_, rfl, ?_, ?_⟩
  · show dlookup (dupdate
      (dset (if noInput then dupdate defaults (extraD.filter nonUndP)
        else pf (dupdate defaults (extraD.filter nonUndP))) "_template" url)
      (extraD.filter undP)) k = some v
    exact dlookup_dupdate_of_some _ _ _ _ (keysNodup_filter _ _ hnd)
      (dlookup_filter_und_pos _ _ _ hv hk)
  · show dlookup (dupdate defaults (extraD.filter nonUndP)) k
      = dlookup defaults k
    exact dlookup_dupdate_of_none _ _ _ (dlookup_filter_nonUnd_neg _ _ hk)

/-- C8 witness: the amended engine-key guarantee at a concrete
assembly reusing the `_template` key. -/
theorem c8_witness :
    ∃ o, generate_cookiecutter_context
        ⟨"t", [("lang", "py")], some [("_template", "custom")], true, none,
          true⟩ (fun c => c) = .ok o ∧
      dlookup o.context "_template" = some "custom" ∧
      dlookup o.promptInput "_template" = dlookup [("lang", "py")] "_template" :=
  c8_amended "t" [("lang", "py")] [("_template", "custom")] (fun c => c) true
    "_template" "custom" (by decide) (by decide) (by decide)

end Cruft
